import Mathlib

/-!
# Verification of the minsub parameter-normalization and request-assembly core

This file is a shallow embedding, in Lean 4, of the core of the `minsub`
repository (files `param_util.py`, `model.py`, `pipeline_actions.py`,
`pipeline_api.py`).  Strings are modelled as `List Char`; the relevant
Python standard-library primitives (`os.path.split`, `os.path.join`,
`os.path.normpath`, `str.rstrip`, `str.lstrip`, `str.replace`, the two
fixed `re.sub` rewrites) are embedded faithfully for the inputs the code
feeds them.  Python exceptions are modelled by `Except Err`: the various
`ValueError` raises become distinct `Err` constructors, and the `TypeError`
produced by `os.path.join(str, None)` becomes `Err.typeErr`.

Definitions are followed by theorems settling the frozen claims about the
spec of this repository.
-/

namespace Minsub

/-- String literal to `List Char` helper. -/
def S (s : String) : List Char := s.data

/-- Python `s.rstrip('/')`: remove all trailing `'/'` characters. -/
def rstripSlashes : List Char → List Char
  | [] => []
  | c :: rest =>
    match rstripSlashes rest with
    | [] => if c = '/' then [] else [c]
    | r => c :: r

/-- `param_util.directory_fmt`: `directory.rstrip('/') + '/'`. -/
def directoryFmt (directory : List Char) : List Char :=
  rstripSlashes directory ++ ['/']

/-- Python `os.path.split` (posixpath): split at the final `'/'`;
the head keeps no trailing slashes unless it consists only of slashes. -/
def splitPath (p : List Char) : List Char × List Char :=
  let tail := (p.reverse.takeWhile (fun c => c != '/')).reverse
  let headRaw := p.take (p.length - tail.length)
  let head :=
    if headRaw ≠ [] ∧ headRaw.any (fun c => c != '/') then rstripSlashes headRaw
    else headRaw
  (head, tail)

/-- Python `os.path.dirname`. -/
def dirnameP (p : List Char) : List Char := (splitPath p).1

/-- Python `os.path.basename`. -/
def basenameP (p : List Char) : List Char := (splitPath p).2

/-- Python `os.path.join(a, b)` (posixpath, two arguments). -/
def pjoin (a b : List Char) : List Char :=
  if b.head? = some '/' then b
  else if a = [] ∨ a.getLast? = some '/' then a ++ b
  else a ++ '/' :: b

/-- Python `s.replace(pat, rep, 1)`: replace the first occurrence only. -/
def replaceFirst : List Char → List Char → List Char → List Char
  | [], _, _ => []
  | c :: rest, pat, rep =>
    if pat.isPrefixOf (c :: rest) then rep ++ (c :: rest).drop pat.length
    else c :: replaceFirst rest pat rep

/-- Python `s.split(sep)` for a single-character separator. -/
def splitOnChar (c : Char) : List Char → List (List Char)
  | [] => [[]]
  | d :: rest =>
    if d = c then [] :: splitOnChar c rest
    else
      match splitOnChar c rest with
      | [] => [[d]]
      | r :: rs => (d :: r) :: rs

/-- One step of the `os.path.normpath` component loop. -/
def normStep (initialSlashes : Nat) (acc : List (List Char)) (comp : List Char) :
    List (List Char) :=
  if comp = [] ∨ comp = S "." then acc
  else if comp ≠ S ".." ∨ (initialSlashes = 0 ∧ acc = []) ∨
      (acc ≠ [] ∧ acc.getLast? = some (S "..")) then acc ++ [comp]
  else if acc ≠ [] then acc.dropLast
  else acc

/-- Python `os.path.normpath` (posixpath). -/
def normpath (p : List Char) : List Char :=
  if p = [] then S "."
  else
    let initialSlashes : Nat :=
      if (S "//").isPrefixOf p ∧ ¬ (S "///").isPrefixOf p then 2
      else if (S "/").isPrefixOf p then 1
      else 0
    let comps := splitOnChar '/' p
    let newComps := comps.foldl (normStep initialSlashes) []
    let res := List.replicate initialSlashes '/' ++ List.intercalate (S "/") newComps
    if res = [] then S "." else res

/-- Python `os.path.abspath` with the working directory passed explicitly:
`normpath(join(cwd, p))` (`join` already returns `p` when `p` is absolute). -/
def abspathFrom (cwd p : List Char) : List Char := normpath (pjoin cwd p)

/-- The exceptions raised by the embedded code.  All constructors except
`typeErr` model Python `ValueError`s with the message of the corresponding
`raise`; `typeErr` models the untyped `TypeError` that
`os.path.join(str, None)` raises. -/
inductive Err where
  | providerErr (uri : List Char)
  | squareBracketErr (uri : List Char)
  | questionMarkErr (uri : List Char)
  | pathWildcardErr (uri : List Char)
  | recursiveWildcardErr (uri : List Char)
  | dotFileErr (uri : List Char)
  | missingFilenameErr (uri : List Char)
  | invalidNameErr (paramType : List Char) (name : List Char)
  | duplicateNamesErr (names : List (List Char))
  | typeErr
deriving DecidableEq, Repr

/-- Python substring containment `pat in s`. -/
def containsSub (pat : List Char) : List Char → Bool
  | [] => pat.isEmpty
  | c :: rest => pat.isPrefixOf (c :: rest) || containsSub pat rest

/-- `FileParamUtil._validate_file_provider`. -/
def validateFileProvider (uri : List Char) : Except Err Unit :=
  if (S "gs://").isPrefixOf uri then .ok ()
  else .error (.providerErr uri)

/-- `FileParamUtil._validate_paths_or_fail`. -/
def validatePathsOrFail (uri : List Char) (recursive : Bool) : Except Err Unit :=
  let path := (splitPath uri).1
  let filename := (splitPath uri).2
  if uri.contains '[' || uri.contains ']' then .error (.squareBracketErr uri)
  else if uri.contains '?' then .error (.questionMarkErr uri)
  else if path.contains '*' then .error (.pathWildcardErr uri)
  else if containsSub (S "**") filename then .error (.recursiveWildcardErr uri)
  else if filename = S ".." ∨ filename = S "." then .error (.dotFileErr uri)
  else if ¬ recursive ∧ filename = [] then .error (.missingFilenameErr uri)
  else .ok ()

/-- `param_util._gcs_uri_rewriter`: the raw URI is returned unchanged and the
docker path replaces the first `gs://` with `gs/`. -/
def gcsUriRewriter (rawUri : List Char) : List Char × List Char :=
  (rawUri, replaceFirst rawUri (S "gs://") (S "gs/"))

/-- `param_util.UriParts`: a URI held as leading path (ending in `/`) plus
basename; the string value is `path ++ basename`. -/
structure UriParts where
  path : List Char
  basename : List Char
deriving DecidableEq, Repr

/-- The string value of a `UriParts` (Python: the `str` content). -/
def UriParts.uri (u : UriParts) : List Char := u.path ++ u.basename

/-- `FileParamUtil.parse_uri`. -/
def parseUri (rawUri : List Char) (recursive : Bool) :
    Except Err (List Char × UriParts) :=
  let raw := if recursive then directoryFmt rawUri else rawUri
  match validateFileProvider raw with
  | .error e => .error e
  | .ok _ =>
    match validatePathsOrFail raw recursive with
    | .error e => .error e
    | .ok _ =>
      let uri := (gcsUriRewriter raw).1
      let dockerUri := (gcsUriRewriter raw).2
      .ok (dockerUri, ⟨directoryFmt (dirnameP uri), basenameP uri⟩)

/-- The prefix replacement table of `_local_uri_rewriter`, with `~/`
expanded through the caller-supplied `home` (Python: `os.getenv('HOME')`,
assumed set). -/
def prefixReplacements (home : List Char) : List (List Char × List Char) :=
  [(S "file:///", S "/"), (S "~/", home), (S "./", []), (S "file:/", S "/")]

/-- The sequential prefix-rewrite loop of `_local_uri_rewriter`:
each table entry whose prefix matches the current value replaces it with
`os.path.join(replacement, rest)`. -/
def applyPrefixReplacements : List (List Char × List Char) → List Char → List Char
  | [], p => p
  | (pre, rep) :: rest, p =>
    applyPrefixReplacements rest
      (if pre.isPrefixOf p then pjoin rep (p.drop pre.length) else p)

/-- `re.sub(r'/\.\.', '/_dotdot_', s)`: replace every (non-overlapping,
left-to-right) occurrence of the literal `/..`. -/
def replaceSlashDotDot : List Char → List Char
  | '/' :: '.' :: '.' :: rest => S "/_dotdot_" ++ replaceSlashDotDot rest
  | c :: rest => c :: replaceSlashDotDot rest
  | [] => []

/-- The `docker_rewrites` substitution chain of `_local_uri_rewriter`:
global `/..`, then anchored `^..`, `^~/` and `^file:/`. -/
def localDockerRewrites (p : List Char) : List Char :=
  let d1 := replaceSlashDotDot p
  let d2 := if (S "..").isPrefixOf d1 then S "_dotdot_" ++ d1.drop 2 else d1
  let d3 := if (S "~/").isPrefixOf d2 then S "_home_/" ++ d2.drop 2 else d2
  if (S "file:/").isPrefixOf d3 then d3.drop 6 else d3

/-- `param_util._local_uri_rewriter`, with the environment (`HOME`) and the
working directory (for `os.path.abspath`) passed explicitly. -/
def localUriRewriter (home cwd rawUri : List Char) : List Char × List Char :=
  let rawPath := (splitPath rawUri).1
  let filename := (splitPath rawUri).2
  let normedPath := applyPrefixReplacements (prefixReplacements home) rawPath
  let normedUri := pjoin (directoryFmt (abspathFrom cwd normedPath)) filename
  let dockerStem :=
    (localDockerRewrites (normpath rawPath)).dropWhile (fun c => c == '.' || c == '/')
  (normedUri, directoryFmt (S "file/" ++ dockerStem) ++ filename)

/-! ## Parameter model (`model.py`, `param_util.py`) -/

/-- The character class of `_validate_param_name`'s regex body. -/
def isNameHead (c : Char) : Bool := c.isAlpha || c == '_'

/-- Continuation characters of the name regex. -/
def isNameTail (c : Char) : Bool := c.isAlphanum || c == '_'

/-- The regex `^[a-zA-Z_][a-zA-Z0-9_]*$` applied without the end anchor
subtlety: head character then tail characters to the end. -/
def posixNameCore : List Char → Bool
  | [] => false
  | c :: rest => isNameHead c && rest.all isNameTail

/-- `param_util._validate_param_name`'s test.  Python's `$` also matches just
before a single trailing newline, so `'A\n'` passes; this is modelled
faithfully. -/
def validParamName (n : List Char) : Bool :=
  posixNameCore n ||
    (n.getLast? = some '\n' && posixNameCore n.dropLast)

/-- `param_util.EnvParam` (name/value pair). -/
structure EnvParam where
  name : List Char
  value : Option (List Char)
deriving DecidableEq, Repr

/-- `EnvParam.__new__`: validate the name, then build. -/
def mkEnvParam (name : List Char) (value : Option (List Char)) :
    Except Err EnvParam :=
  if validParamName name then .ok ⟨name, value⟩
  else .error (.invalidNameErr (S "Environment variable") name)

/-- `param_util.FileParam` (shared by the input and output variants). -/
structure FileParam where
  name : List Char
  value : Option (List Char)
  dockerPath : Option (List Char)
  uri : Option UriParts
  recursive : Bool
deriving DecidableEq, Repr

/-- `InputFileParam.__new__` / `OutputFileParam.__new__`: validate the name
(with the variant's error label), then build the record. -/
def mkFileParam (ptype : List Char) (name : List Char) (value : Option (List Char))
    (dockerPath : Option (List Char)) (uri : Option UriParts) (recursive : Bool) :
    Except Err FileParam :=
  if validParamName name then .ok ⟨name, value, dockerPath, uri, recursive⟩
  else .error (.invalidNameErr ptype name)

/-- `FileParamUtil.make_param`: an absent or empty raw URI yields a
declared-but-unset parameter; otherwise the URI is parsed first and the
name validated by the parameter class afterwards. -/
def makeParam (ptype : List Char) (name : List Char) (rawUri : Option (List Char))
    (recursive : Bool) : Except Err FileParam :=
  match rawUri with
  | none => mkFileParam ptype name none none none recursive
  | some u =>
    if u = [] then mkFileParam ptype name none none none recursive
    else
      match parseUri u recursive with
      | .error e => .error e
      | .ok (dockerPath, uriParts) =>
        mkFileParam ptype name (some u) (some dockerPath) (some uriParts) recursive

/-- `FileParamUtil.get_variable_name` together with the `_auto_index` state:
returns the chosen name and the updated counter. -/
def getVariableName (autoPre : List Char) (autoIndex : Nat)
    (name : Option (List Char)) : List Char × Nat :=
  match name with
  | none => (autoPre ++ (Nat.repr autoIndex).data, autoIndex + 1)
  | some n =>
    if n = [] then (autoPre ++ (Nat.repr autoIndex).data, autoIndex + 1)
    else (n, autoIndex)

/-- `param_util.split_pair(s, '=', nullable_idx=0)`: split on the first `=`;
without one the name is absent. -/
def splitPairName (s : List Char) : Option (List Char) × List Char :=
  if s.contains '=' then
    (some (s.takeWhile (fun c => c != '=')),
      (s.dropWhile (fun c => c != '=')).drop 1)
  else (none, s)

/-- `param_util.split_pair(s, '=', nullable_idx=1)`: split on the first `=`;
without one the value is absent. -/
def splitPairValue (s : List Char) : List Char × Option (List Char) :=
  if s.contains '=' then
    (s.takeWhile (fun c => c != '='),
      some ((s.dropWhile (fun c => c != '=')).drop 1))
  else (s, none)

/-- Python `set.add` as insertion-ordered deduplication. -/
def addIfAbsent [DecidableEq α] (l : List α) (a : α) : List α :=
  if a ∈ l then l else l ++ [a]

/-! ## Job parameter set (`model.JobParams`, `param_util.args_to_job_params`) -/

/-- The inner loop of `JobParams._check_for_collisions` flattened over the
concatenated name list: names already seen are appended to the duplicate
list, new ones extend the known set. -/
def collectDuplicates : List (List Char) → List (List Char) → List (List Char)
  | [], _ => []
  | n :: rest, known =>
    if n ∈ known then n :: collectDuplicates rest known
    else collectDuplicates rest (n :: known)

/-- `model.JobParams` (the five parameter classes). -/
structure JobParams where
  envs : List EnvParam
  inputs : List FileParam
  recursiveInputs : List FileParam
  outputs : List FileParam
  recursiveOutputs : List FileParam
deriving DecidableEq, Repr

/-- The names of all parameters across the five classes, in the iteration
order of `_check_for_collisions`. -/
def allParamNames (envs : List EnvParam)
    (inputs rInputs outputs rOutputs : List FileParam) : List (List Char) :=
  envs.map (·.name) ++ inputs.map (·.name) ++ rInputs.map (·.name) ++
    outputs.map (·.name) ++ rOutputs.map (·.name)

/-- `JobParams.__init__`: run `_check_for_collisions` over the five classes
and raise on a non-empty duplicate list, otherwise store the classes. -/
def mkJobParams (envs : List EnvParam)
    (inputs rInputs outputs rOutputs : List FileParam) : Except Err JobParams :=
  let dups := collectDuplicates (allParamNames envs inputs rInputs outputs rOutputs) []
  if dups = [] then .ok ⟨envs, inputs, rInputs, outputs, rOutputs⟩
  else .error (.duplicateNamesErr dups)

/-- One step of the env-parameter loop of `parse_pair_args`. -/
def addEnvArg (acc : List EnvParam) (arg : List Char) : Except Err (List EnvParam) :=
  let p := splitPairValue arg
  match mkEnvParam p.1 p.2 with
  | .error e => .error e
  | .ok ep => .ok (addIfAbsent acc ep)

/-- `param_util.parse_pair_args(labels, EnvParam)` (the set modelled as an
insertion-ordered duplicate-free list). -/
def parsePairArgs : List (List Char) → List EnvParam → Except Err (List EnvParam)
  | [], acc => .ok acc
  | arg :: rest, acc =>
    match addEnvArg acc arg with
    | .error e => .error e
    | .ok acc' => parsePairArgs rest acc'

/-- One class of the file-parameter loops of `args_to_job_params`:
split each flag, auto-name it through the shared counter, build the
parameter, and add it to the class set. -/
def buildFileParams (ptype autoPre : List Char) (recursive : Bool) :
    List (List Char) → Nat → List FileParam → Except Err (List FileParam × Nat)
  | [], autoIndex, sink => .ok (sink, autoIndex)
  | arg :: rest, autoIndex, sink =>
    let p := splitPairName arg
    let nv := getVariableName autoPre autoIndex p.1
    match makeParam ptype nv.1 (some p.2) recursive with
    | .error e => .error e
    | .ok fp => buildFileParams ptype autoPre recursive rest nv.2 (addIfAbsent sink fp)

/-- `param_util.AUTO_PREFIX_INPUT`. -/
def autoPrefixInput : List Char := S "INPUT_"

/-- `param_util.AUTO_PREFIX_OUTPUT`. -/
def autoPrefixOutput : List Char := S "OUTPUT_"

/-- `param_util.args_to_job_params`: the non-recursive and recursive loops of
each direction share one utility instance, hence one auto-index counter. -/
def argsToJobParams (envs inputs inputsRecur outputs outputsRecur : List (List Char)) :
    Except Err JobParams :=
  match parsePairArgs envs [] with
  | .error e => .error e
  | .ok envData =>
    match buildFileParams (S "Input parameter") autoPrefixInput false inputs 0 [] with
    | .error e => .error e
    | .ok (inputData, inIdx) =>
      match buildFileParams (S "Input parameter") autoPrefixInput true inputsRecur inIdx [] with
      | .error e => .error e
      | .ok (rInputData, _) =>
        match buildFileParams (S "Output parameter") autoPrefixOutput false outputs 0 [] with
        | .error e => .error e
        | .ok (outputData, outIdx) =>
          match buildFileParams (S "Output parameter") autoPrefixOutput true outputsRecur outIdx [] with
          | .error e => .error e
          | .ok (rOutputData, _) =>
            mkJobParams envData inputData rInputData outputData rOutputData

/-! ## Constants (`model.py`), resources, actions and the request document -/

/-- `model.DATA_DISK_NAME`. -/
def dataDiskName : List Char := S "minsubdisk"

/-- `model.DATA_DISK_MOUNT`. -/
def dataDiskMount : List Char := S "/mnt/data"

/-- `model.ONE_DAY`. -/
def oneDay : List Char := S "86400s"

/-- `model.SEVEN_DAYS`. -/
def sevenDays : List Char := S "604800s"

/-- `model.ResourcesConfig` after `__new__` (scopes already a list). -/
structure ResourcesConfig where
  project : List Char
  region : List Char
  machineType : List Char
  diskSize : Nat
  serviceAccount : Option (List Char)
  scopes : List (List Char)
deriving DecidableEq, Repr

/-- The `serviceAccount` block of `_create_resources`: the `email` key is
present only when `rconfig.service_account` is truthy. -/
structure SaDict where
  scopes : List (List Char)
  email : Option (List Char)
deriving DecidableEq, Repr

/-- One disk entry of the `virtualMachine` block. -/
structure DiskDict where
  name : List Char
  sizeGb : Nat
deriving DecidableEq, Repr

/-- The `virtualMachine` block of `_create_resources`. -/
structure VmDict where
  machineType : List Char
  preemptible : Bool
  disks : List DiskDict
  serviceAccount : SaDict
deriving DecidableEq, Repr

/-- The payload of `pipeline_api._create_resources`. -/
structure ResourcesDict where
  projectId : List Char
  regions : List (List Char)
  virtualMachine : VmDict
deriving DecidableEq, Repr

/-- `pipeline_api._create_resources`. -/
def createResources (rconfig : ResourcesConfig) : ResourcesDict :=
  let email :=
    match rconfig.serviceAccount with
    | none => none
    | some sa => if sa = [] then none else some sa
  { projectId := rconfig.project
    regions := [rconfig.region]
    virtualMachine :=
      { machineType := rconfig.machineType
        preemptible := false
        disks := [{ name := dataDiskName, sizeGb := rconfig.diskSize }]
        serviceAccount := { scopes := rconfig.scopes, email := email } } }

/-- One mount entry of `GenericAction.to_dict`. -/
structure MountDict where
  disk : List Char
  path : List Char
  readOnly : Bool
deriving DecidableEq, Repr

/-- The dictionary produced by `GenericAction.to_dict`. -/
structure ActionDict where
  name : List Char
  imageUri : List Char
  commands : List (List Char)
  environment : List (List Char × Option (List Char))
  flags : List (List Char)
  mounts : List MountDict
  timeout : List Char
  entrypoint : Option (List Char)
deriving DecidableEq, Repr

/-- `pipeline_actions.DEBIAN_IMAGE`. -/
def debianImage : List Char := S "debian:stable-slim"

/-- `pipeline_actions.CLOUD_SDK_IMAGE`. -/
def cloudSdkImage : List Char := S "google/cloud-sdk:slim"

/-- The `set -o errexit/nounset/pipefail` preamble of
`pipeline_actions.GENERIC_BASH_SCRIPT_CMD` (everything before `%s`). -/
def bashPreamble : List Char :=
  S "set -o errexit\nset -o nounset\nset -o pipefail\n\n"

/-- `GENERIC_BASH_SCRIPT_CMD % body`. -/
def genericBashScript (body : List Char) : List Char :=
  bashPreamble ++ body ++ S "\n"

/-- Python `str(v)` of an optional string: `None` prints as `"None"`
(the `'%s' % value` formatting in the copy commands). -/
def pyStr : Option (List Char) → List Char
  | none => S "None"
  | some s => s

/-- The sequential command-building loop shared by the stage-in and
stage-out actions: the first failing element aborts, as the Python loop
raises mid-iteration. -/
def mapOrFail (f : α → Except Err β) : List α → Except Err (List β)
  | [] => .ok []
  | a :: rest =>
    match f a with
    | .error e => .error e
    | .ok b =>
      match mapOrFail f rest with
      | .error e => .error e
      | .ok bs => .ok (b :: bs)

/-- One `gsutil -mq cp` line of `LocalizeAction.make_commands`:
`os.path.join(mount, docker_path)` raises `TypeError` on an unset path. -/
def localizeCp (p : FileParam) : Except Err (List Char) :=
  match p.dockerPath with
  | none => .error .typeErr
  | some dp =>
    .ok (S "gsutil -mq cp \"" ++ pyStr p.value ++ S "\" \"" ++
      pjoin dataDiskMount dp ++ S "\"")

/-- One `gsutil -mq rsync -r` line of `LocalizeAction.make_commands`. -/
def localizeRsync (p : FileParam) : Except Err (List Char) :=
  match p.dockerPath with
  | none => .error .typeErr
  | some dp =>
    .ok (S "gsutil -mq rsync -r \"" ++ pyStr p.value ++ S "\" \"" ++
      pjoin dataDiskMount dp ++ S "\"")

/-- One `gsutil -mq cp` line of `DelocalizeAction.make_commands`
(source and destination swapped relative to stage-in). -/
def delocalizeCp (p : FileParam) : Except Err (List Char) :=
  match p.dockerPath with
  | none => .error .typeErr
  | some dp =>
    .ok (S "gsutil -mq cp \"" ++ pjoin dataDiskMount dp ++ S "\" \"" ++
      pyStr p.value ++ S "\"")

/-- One `gsutil -mq rsync -r` line of `DelocalizeAction.make_commands`. -/
def delocalizeRsync (p : FileParam) : Except Err (List Char) :=
  match p.dockerPath with
  | none => .error .typeErr
  | some dp =>
    .ok (S "gsutil -mq rsync -r \"" ++ pjoin dataDiskMount dp ++ S "\" \"" ++
      pyStr p.value ++ S "\"")

/-- The `copy_commands` list of `LocalizeAction.make_commands`, built from
an enumeration of the input and recursive-input sets. -/
def localizeCopyCommands (inputs rInputs : List FileParam) :
    Except Err (List (List Char)) :=
  match mapOrFail localizeCp inputs with
  | .error e => .error e
  | .ok c1 =>
    match mapOrFail localizeRsync rInputs with
    | .error e => .error e
    | .ok c2 => .ok (c1 ++ c2)

/-- The `copy_commands` list of `DelocalizeAction.make_commands`. -/
def delocalizeCopyCommands (outputs rOutputs : List FileParam) :
    Except Err (List (List Char)) :=
  match mapOrFail delocalizeCp outputs with
  | .error e => .error e
  | .ok c1 =>
    match mapOrFail delocalizeRsync rOutputs with
    | .error e => .error e
    | .ok c2 => .ok (c1 ++ c2)

/-- The three action kinds built by the repository
(`LocalizeAction`, `UserAction`, `DelocalizeAction`). -/
inductive MAction where
  | localizeA
  | delocalizeA
  | userA (name : List Char) (image : List Char) (command : List (List Char))
deriving DecidableEq, Repr

/-- The fixed mount list every `GenericAction.to_dict` emits. -/
def actionMounts : List MountDict :=
  [{ disk := dataDiskName, path := dataDiskMount, readOnly := false }]

/-- `GenericAction.to_dict` for each action kind: name, image and commands
vary per class; environment, flags, mounts, timeout and entrypoint are the
base-class defaults (no subclass overrides them). -/
def actionToDict (jc : JobParams) : MAction → Except Err ActionDict
  | .localizeA =>
    match localizeCopyCommands jc.inputs jc.recursiveInputs with
    | .error e => .error e
    | .ok cmds =>
      .ok { name := S "localize", imageUri := cloudSdkImage
            commands := [S "-c", genericBashScript (List.intercalate (S "\n") cmds)]
            environment := [], flags := [], mounts := actionMounts
            timeout := oneDay, entrypoint := some (S "/bin/bash") }
  | .delocalizeA =>
    match delocalizeCopyCommands jc.outputs jc.recursiveOutputs with
    | .error e => .error e
    | .ok cmds =>
      .ok { name := S "delocalize", imageUri := cloudSdkImage
            commands := [S "-c", genericBashScript (List.intercalate (S "\n") cmds)]
            environment := [], flags := [], mounts := actionMounts
            timeout := oneDay, entrypoint := some (S "/bin/bash") }
  | .userA nm img cmd =>
    .ok { name := nm, imageUri := img, commands := cmd
          environment := [], flags := [], mounts := actionMounts
          timeout := oneDay, entrypoint := some (S "/bin/bash") }

/-! ## Request assembly (`pipeline_api.create_pipeline_request`) -/

/-- The uniform view of a parameter during the environment merge:
`hasattr(v, 'docker_path')` distinguishes file parameters from env ones. -/
inductive JParam where
  | envP (e : EnvParam)
  | fileP (f : FileParam)
deriving DecidableEq, Repr

/-- `JobParams.values()` flattened into merge order: envs, inputs,
recursive inputs, outputs, recursive outputs. -/
def JobParams.allParams (jc : JobParams) : List JParam :=
  jc.envs.map .envP ++ jc.inputs.map .fileP ++ jc.recursiveInputs.map .fileP ++
    jc.outputs.map .fileP ++ jc.recursiveOutputs.map .fileP

/-- The key/value a parameter contributes to the merged environment:
file parameters contribute `os.path.join(DATA_DISK_MOUNT, docker_path)`
(a `TypeError` when the docker path is `None`), env parameters their
literal value. -/
def envContribution : JParam → Except Err (List Char × Option (List Char))
  | .envP e => .ok (e.name, e.value)
  | .fileP f =>
    match f.dockerPath with
    | none => .error .typeErr
    | some dp => .ok (f.name, some (pjoin dataDiskMount dp))

/-- Python dict assignment `d[k] = v`: overwrite in place if the key exists,
otherwise append. -/
def dictInsert (d : List (List Char × Option (List Char))) (k : List Char)
    (v : Option (List Char)) : List (List Char × Option (List Char)) :=
  if d.any (fun p => p.1 == k) then d.map (fun p => if p.1 == k then (k, v) else p)
  else d ++ [(k, v)]

/-- The environment-merge loop of `create_pipeline_request`. -/
def mergeEnvsGo : List JParam → List (List Char × Option (List Char)) →
    Except Err (List (List Char × Option (List Char)))
  | [], d => .ok d
  | p :: rest, d =>
    match envContribution p with
    | .error e => .error e
    | .ok kv => mergeEnvsGo rest (dictInsert d kv.1 kv.2)

/-- The merged environment of `create_pipeline_request`. -/
def mergeEnvs (ps : List JParam) : Except Err (List (List Char × Option (List Char))) :=
  mergeEnvsGo ps []

/-- The `pipeline` sub-document of the request. -/
structure PipelineDoc where
  actions : List ActionDict
  resources : ResourcesDict
  environment : List (List Char × Option (List Char))
  timeout : List Char
deriving DecidableEq, Repr

/-- The full request document (`pipeline` plus fixed `labels`). -/
structure RequestDoc where
  pipeline : PipelineDoc
  labels : List (List Char × List Char)
deriving DecidableEq, Repr

/-- `pipeline_api.create_pipeline_request`: merge the environment first
(the Python loop runs before the return expression), then render each
action, then assemble the document. -/
def createPipelineRequest (rc : ResourcesConfig) (jc : JobParams)
    (actions : List MAction) (timeout : List Char) : Except Err RequestDoc :=
  match mergeEnvs jc.allParams with
  | .error e => .error e
  | .ok envs =>
    match mapOrFail (actionToDict jc) actions with
    | .error e => .error e
    | .ok acts =>
      .ok { pipeline := { actions := acts, resources := createResources rc
                          environment := envs, timeout := timeout }
            labels := [(S "minsub", S "v1")] }

/-! ## Helper lemmas -/

/-- Evaluation of `rstripSlashes` on the empty list. -/
theorem rstripSlashes_nil : rstripSlashes [] = [] := rfl

/-- Evaluation of `rstripSlashes` on a cons, in `ite` form. -/
theorem rstripSlashes_cons (c : Char) (x : List Char) :
    rstripSlashes (c :: x) =
      if rstripSlashes x = [] then (if c = '/' then [] else [c])
      else c :: rstripSlashes x := by
  show (match rstripSlashes x with
    | [] => if c = '/' then [] else [c]
    | r => c :: r) = _
  cases h : rstripSlashes x <;> simp

/-- Stripping trailing slashes ignores one appended slash. -/
theorem rstripSlashes_append_slash (x : List Char) :
    rstripSlashes (x ++ ['/']) = rstripSlashes x := by
  induction x with
  | nil => rfl
  | cons c x ih => rw [List.cons_append, rstripSlashes_cons, ih, rstripSlashes_cons]

/-- Stripping trailing slashes is idempotent. -/
theorem rstripSlashes_idem (x : List Char) :
    rstripSlashes (rstripSlashes x) = rstripSlashes x := by
  induction x with
  | nil => rfl
  | cons c x ih =>
    rw [rstripSlashes_cons]
    by_cases h : rstripSlashes x = []
    · simp only [h, if_pos]
      by_cases hc : c = '/'
      · simp [hc, rstripSlashes_nil]
      · simp [hc, rstripSlashes_cons, rstripSlashes_nil]
    · simp only [h, if_neg, ite_false]
      rw [rstripSlashes_cons, ih, if_neg h]

/-- `directory_fmt` is idempotent. -/
theorem directoryFmt_idem (x : List Char) :
    directoryFmt (directoryFmt x) = directoryFmt x := by
  simp only [directoryFmt, rstripSlashes_append_slash, rstripSlashes_idem]

/-- How trailing-slash stripping distributes over an append. -/
theorem rstripSlashes_append (a b : List Char) :
    rstripSlashes (a ++ b) =
      if rstripSlashes b = [] then rstripSlashes a else a ++ rstripSlashes b := by
  induction a with
  | nil =>
    simp only [List.nil_append]
    split <;> simp_all [rstripSlashes_nil]
  | cons c a ih =>
    rw [List.cons_append, rstripSlashes_cons, ih]
    by_cases hb : rstripSlashes b = []
    · simp only [hb, ite_true]
      rw [rstripSlashes_cons]
    · have hne : a ++ rstripSlashes b ≠ [] := by
        intro hh
        exact hb (List.append_eq_nil.mp hh).2
      simp [hb, hne]

/-- A `takeWhile` stops no later than the first failing element, wherever the
list continues after it. -/
theorem takeWhile_append_stop (p : Char → Bool) (c : Char) (hc : p c = false)
    (a t : List Char) : (a ++ c :: t).takeWhile p = a.takeWhile p := by
  induction a with
  | nil => simp [List.takeWhile_cons, hc]
  | cons d a ih =>
    by_cases hd : p d
    · simp [List.takeWhile_cons, hd, ih]
    · simp [List.takeWhile_cons, hd]

/-- The basename after a prefix that ends in a slash depends only on the
remainder. -/
theorem basenameP_slash_append (a t : List Char) :
    basenameP (a ++ ['/'] ++ t) = (t.reverse.takeWhile (fun c => c != '/')).reverse := by
  show (((a ++ ['/'] ++ t).reverse.takeWhile (fun c => c != '/')).reverse) = _
  rw [show (a ++ ['/'] ++ t).reverse = t.reverse ++ '/' :: a.reverse by simp]
  rw [takeWhile_append_stop (fun c => c != '/') '/' (by decide)]

/-- The basename of a string with a trailing slash is empty. -/
theorem basenameP_trailing_slash (x : List Char) : basenameP (x ++ ['/']) = [] := by
  have := basenameP_slash_append x []
  simpa using this

/-- Replacing the first occurrence of a pattern that sits at the front. -/
theorem replaceFirst_here (pat rep t : List Char) (h : pat ≠ []) :
    replaceFirst (pat ++ t) pat rep = rep ++ t := by
  cases pat with
  | nil => exact absurd rfl h
  | cons c p =>
    have hpre : (c :: p).isPrefixOf (c :: (p ++ t)) = true := by
      rw [← List.cons_append, List.isPrefixOf_iff_prefix]
      exact List.prefix_append _ _
    simp only [List.cons_append, replaceFirst, List.append_eq, hpre, if_true]
    simp [List.drop_succ_cons, List.drop_left]

/-- The basename of a `gs://`-URI equals the basename of its `gs/` docker
rewrite: both prefixes end in a slash, so only the remainder matters. -/
theorem basenameP_gs (t : List Char) :
    basenameP (S "gs://" ++ t) = basenameP (S "gs/" ++ t) := by
  rw [show S "gs://" ++ t = S "gs:/" ++ ['/'] ++ t from rfl]
  rw [show S "gs/" ++ t = S "gs" ++ ['/'] ++ t from rfl]
  rw [basenameP_slash_append, basenameP_slash_append]

/-- Anatomy of a successful `parse_uri` run: the (possibly
directory-coerced) URI starts with `gs://`, the docker path is the same
string with the scheme segment rewritten to `gs/`, path validation
succeeded on it, and the returned parts re-split that URI. -/
theorem parseUri_ok_structure (raw : List Char) (rec : Bool) (docker : List Char)
    (parts : UriParts) (h : parseUri raw rec = .ok (docker, parts)) :
    ∃ t, (if rec then directoryFmt raw else raw) = S "gs://" ++ t ∧
      docker = S "gs/" ++ t ∧
      validatePathsOrFail (S "gs://" ++ t) rec = .ok () ∧
      parts = ⟨directoryFmt (dirnameP (S "gs://" ++ t)), basenameP (S "gs://" ++ t)⟩ := by
  simp only [parseUri] at h
  set raw' := if rec then directoryFmt raw else raw with hraw
  cases hval : validateFileProvider raw' with
  | error e => rw [hval] at h; exact absurd h (by simp)
  | ok u =>
    rw [hval] at h
    have hpre : (S "gs://").isPrefixOf raw' = true := by
      by_contra hc
      simp only [validateFileProvider, hc] at hval
      simp at hval
    obtain ⟨t, ht⟩ : ∃ t, raw' = S "gs://" ++ t := by
      rw [List.isPrefixOf_iff_prefix] at hpre
      obtain ⟨t, ht⟩ := hpre
      exact ⟨t, ht.symm⟩
    cases hpath : validatePathsOrFail raw' rec with
    | error e => rw [hpath] at h; exact absurd h (by simp)
    | ok v =>
      rw [hpath] at h
      simp only [gcsUriRewriter, Except.ok.injEq, Prod.mk.injEq] at h
      refine ⟨t, ht, ?_, ?_, ?_⟩
      · rw [← h.1, ht, replaceFirst_here _ _ _ (by decide)]
      · rw [← ht]; exact hpath
      · rw [← h.2, ht]

/-- `parse_uri` in recursive mode depends on its argument only through
`directory_fmt`. -/
theorem parseUri_fmt_congr (a b : List Char) (h : directoryFmt a = directoryFmt b) :
    parseUri a true = parseUri b true := by
  simp only [parseUri, if_true, h]

/-- Path validation success rules out a `..` basename. -/
theorem validatePathsOrFail_ok_no_dotdot (u : List Char) (r : Bool)
    (h : validatePathsOrFail u r = .ok ()) : basenameP u ≠ S ".." := by
  intro hb
  simp only [validatePathsOrFail] at h
  rw [show (splitPath u).2 = basenameP u from rfl, hb] at h
  split_ifs at h
  simp_all

/-- When the basename is empty and the string has a non-slash character,
`dirname` strips the trailing slashes of the whole string. -/
theorem dirnameP_of_basename_nil (p : List Char) (hb : basenameP p = [])
    (hne : p ≠ []) (hany : p.any (fun c => c != '/') = true) :
    dirnameP p = rstripSlashes p := by
  show (splitPath p).1 = _
  simp only [splitPath]
  have htail : ((p.reverse.takeWhile (fun c => c != '/')).reverse) = [] := hb
  rw [htail]
  simp [List.take_length, hne, hany]

/-! ## Claim C1 -/

/-- C1 is false as stated: the raw URI `gs://../../../etc/passwd` is
accepted by `parse_uri` (the validator only rejects `..` as the final
component), the returned mount path `gs/../../../etc/passwd` contains `..`
path segments, and joining the fixed mount root `/mnt/data` with it
resolves to `/etc/passwd`, strictly outside the mount root. -/
theorem c1_counterexample :
    parseUri (S "gs://../../../etc/passwd") false =
      .ok (S "gs/../../../etc/passwd", ⟨S "gs://../../../etc/", S "passwd"⟩) ∧
    S ".." ∈ splitOnChar '/' (S "gs/../../../etc/passwd") ∧
    normpath (pjoin dataDiskMount (S "gs/../../../etc/passwd")) = S "/etc/passwd" ∧
    (S "/mnt/data/").isPrefixOf (S "/etc/passwd") = false := by
  exact ⟨rfl, by decide, by decide, by decide⟩

/-- C1 (amended): for every raw URI and recursive flag accepted by
`parse_uri`, the returned mount path begins with the `gs/` segment — in
particular it never begins with `/` — and its final path segment
(basename) is never `..`; however `..` may survive in non-final segments,
so containment in the mount root is not guaranteed in general. -/
theorem c1_amended_mount_path_shape (raw : List Char) (rec : Bool)
    (docker : List Char) (parts : UriParts)
    (h : parseUri raw rec = .ok (docker, parts)) :
    (∃ t, docker = S "gs/" ++ t) ∧ docker.head? ≠ some '/' ∧
      basenameP docker ≠ S ".." := by
  obtain ⟨t, _, hdock, hval, _⟩ := parseUri_ok_structure raw rec docker parts h
  refine ⟨⟨t, hdock⟩, ?_, ?_⟩
  · rw [hdock, show S "gs/" ++ t = 'g' :: (S "s/" ++ t) from rfl]
    simp
  · rw [hdock, ← basenameP_gs]
    exact validatePathsOrFail_ok_no_dotdot _ _ hval

/-- Witness for the amended C1 at the concrete accepted input
`gs://bucket/file.txt`. -/
theorem c1_amended_mount_path_shape_witness :
    (∃ t, S "gs/bucket/file.txt" = S "gs/" ++ t) ∧
      (S "gs/bucket/file.txt").head? ≠ some '/' ∧
      basenameP (S "gs/bucket/file.txt") ≠ S ".." :=
  c1_amended_mount_path_shape (S "gs://bucket/file.txt") false
    (S "gs/bucket/file.txt") ⟨S "gs://bucket/", S "file.txt"⟩ rfl

/-! ## Claim C3 -/

/-- Classifier used to state that a normalization failure is not the
square-bracket wildcard error. -/
def isSquareBracketFailure : Except Err (List Char × UriParts) → Bool
  | .error (.squareBracketErr _) => true
  | _ => false

/-- C3 is false as stated: `s3://bucket/a[0].txt` both uses an unsupported
provider and contains a square bracket, yet `parse_uri` fails with the
unsupported-provider error (`_validate_file_provider` runs first), not the
wildcard-class error. -/
theorem c3_counterexample :
    parseUri (S "s3://bucket/a[0].txt") false =
      .error (.providerErr (S "s3://bucket/a[0].txt")) ∧
    (S "s3://bucket/a[0].txt").contains '[' = true ∧
    isSquareBracketFailure (parseUri (S "s3://bucket/a[0].txt") false) = false := by
  exact ⟨rfl, by decide, rfl⟩

/-- C3 (amended): the storage-provider dispatch is checked before the
wildcard-class rejection; for every input that uses an unsupported provider
and contains a square bracket, normalization fails with the
unsupported-provider error. -/
theorem c3_amended_provider_checked_first (raw : List Char) (rec : Bool)
    (hp : (S "gs://").isPrefixOf (if rec then directoryFmt raw else raw) = false)
    (_hb : raw.contains '[' = true) :
    parseUri raw rec =
      .error (.providerErr (if rec then directoryFmt raw else raw)) := by
  simp only [parseUri, validateFileProvider, hp]
  simp

/-- Witness for the amended C3 at `s3://b/a[1].txt` (non-recursive). -/
theorem c3_amended_provider_checked_first_witness :
    parseUri (S "s3://b/a[1].txt") false =
      .error (.providerErr (if false then directoryFmt (S "s3://b/a[1].txt")
        else S "s3://b/a[1].txt")) :=
  c3_amended_provider_checked_first (S "s3://b/a[1].txt") false (by decide) (by decide)

/-! ## Claim C7 -/

/-- C7: normalization is idempotent on the external-URI component for
directory references — for every raw URI accepted by `parse_uri` with
`recursive = true`, re-running `parse_uri` on the returned external URI
(`UriParts` path + basename) returns the very same result; in particular
the external URI is returned unchanged. -/
theorem c7_directory_normalization_idempotent (raw docker : List Char)
    (parts : UriParts) (h : parseUri raw true = .ok (docker, parts)) :
    parseUri parts.uri true = .ok (docker, parts) := by
  obtain ⟨t, hraw, _, _, hparts⟩ := parseUri_ok_structure raw true docker parts h
  rw [if_pos rfl] at hraw
  have hcons : S "gs://" ++ t = 'g' :: (S "s://" ++ t) := rfl
  have hb : basenameP (S "gs://" ++ t) = [] := by
    rw [← hraw]
    exact basenameP_trailing_slash _
  have hd : dirnameP (S "gs://" ++ t) = rstripSlashes (S "gs://" ++ t) := by
    refine dirnameP_of_basename_nil _ hb (by rw [hcons]; simp) (by rw [hcons]; simp)
  have hu : parts.uri = directoryFmt raw := by
    rw [hparts]
    show directoryFmt (dirnameP (S "gs://" ++ t)) ++ basenameP (S "gs://" ++ t) = _
    rw [hd, hb, List.append_nil, ← hraw]
    simp [directoryFmt, rstripSlashes_append_slash, rstripSlashes_idem]
  rw [parseUri_fmt_congr parts.uri raw (by rw [hu, directoryFmt_idem]), h]

/-- Witness for C7 at the already-normalized directory URI
`gs://bucket/dir/`. -/
theorem c7_directory_normalization_idempotent_witness :
    parseUri (UriParts.uri ⟨S "gs://bucket/dir/", []⟩) true =
      .ok (S "gs/bucket/dir/", ⟨S "gs://bucket/dir/", []⟩) :=
  c7_directory_normalization_idempotent (S "gs://bucket/dir")
    (S "gs/bucket/dir/") ⟨S "gs://bucket/dir/", []⟩ rfl

/-! ## Claim C9 -/

/-- `directory_fmt` keeps a leading `file/` marker intact. -/
theorem directoryFmt_file_marker (d : List Char) :
    ∃ t, directoryFmt (S "file/" ++ d) = S "file/" ++ t := by
  rw [directoryFmt, rstripSlashes_append]
  by_cases h : rstripSlashes d = []
  · rw [if_pos h]
    exact ⟨[], by decide⟩
  · rw [if_neg h]
    exact ⟨rstripSlashes d ++ ['/'], by simp⟩

/-- The docker path produced by the local rewriter always starts with the
`file/` namespace segment. -/
theorem localUriRewriter_docker_marker (home cwd raw : List Char) :
    ∃ t, (localUriRewriter home cwd raw).2 = S "file/" ++ t := by
  simp only [localUriRewriter]
  obtain ⟨t, ht⟩ := directoryFmt_file_marker
    ((localDockerRewrites (normpath (splitPath raw).1)).dropWhile
      (fun c => c == '.' || c == '/'))
  exact ⟨t ++ (splitPath raw).2, by rw [ht, List.append_assoc]⟩

/-- C9: the local-filesystem and remote-object-storage mount-path
namespaces are disjoint — every local rewriter output begins with the
`file/` segment, every accepted remote URI's mount path begins with the
`gs/` segment, so no local mount path ever equals a remote mount path. -/
theorem c9_mount_namespaces_disjoint (home cwd rawL rawG : List Char)
    (rec : Bool) (docker : List Char) (parts : UriParts)
    (h : parseUri rawG rec = .ok (docker, parts)) :
    (∃ t, (localUriRewriter home cwd rawL).2 = S "file/" ++ t) ∧
    (∃ u, docker = S "gs/" ++ u) ∧
    (localUriRewriter home cwd rawL).2 ≠ docker := by
  obtain ⟨u, _, hdock, _, _⟩ := parseUri_ok_structure rawG rec docker parts h
  obtain ⟨t, ht⟩ := localUriRewriter_docker_marker home cwd rawL
  refine ⟨⟨t, ht⟩, ⟨u, hdock⟩, ?_⟩
  intro heq
  rw [ht, hdock] at heq
  rw [show S "file/" ++ t = 'f' :: (S "ile/" ++ t) from rfl,
    show S "gs/" ++ u = 'g' :: (S "s/" ++ u) from rfl] at heq
  have hh : ('f' : Char) = 'g' := (List.cons.injEq _ _ _ _ ▸ heq).1
  exact absurd hh (by decide)

/-- Witness for C9: a concrete local path and a concrete accepted remote
URI yield distinct mount paths. -/
theorem c9_mount_namespaces_disjoint_witness :
    (∃ t, (localUriRewriter (S "/home/u") (S "/cwd") (S "/tmp/x.txt")).2 =
      S "file/" ++ t) ∧
    (∃ u, S "gs/b/a.txt" = S "gs/" ++ u) ∧
    (localUriRewriter (S "/home/u") (S "/cwd") (S "/tmp/x.txt")).2 ≠
      S "gs/b/a.txt" :=
  c9_mount_namespaces_disjoint (S "/home/u") (S "/cwd") (S "/tmp/x.txt")
    (S "gs://b/a.txt") false (S "gs/b/a.txt") ⟨S "gs://b/", S "a.txt"⟩ rfl

/-! ## Claim C10 -/

/-- An unset file parameter anywhere in the merge input makes the
environment merge raise the `TypeError` of `os.path.join(str, None)`. -/
theorem mergeEnvsGo_unset_file (l : List JParam)
    (d : List (List Char × Option (List Char)))
    (hex : ∃ f, JParam.fileP f ∈ l ∧ f.dockerPath = none) :
    mergeEnvsGo l d = .error .typeErr := by
  induction l generalizing d with
  | nil =>
    obtain ⟨f, hf, _⟩ := hex
    exact absurd hf (by simp)
  | cons p rest ih =>
    obtain ⟨f, hf, hnone⟩ := hex
    cases p with
    | envP e =>
      have hrest : JParam.fileP f ∈ rest := by
        rcases List.mem_cons.mp hf with h1 | h2
        · exact absurd h1 (by simp)
        · exact h2
      simp only [mergeEnvsGo, envContribution]
      exact ih _ ⟨f, hrest, hnone⟩
    | fileP g =>
      cases hg : g.dockerPath with
      | none => simp [mergeEnvsGo, envContribution, hg]
      | some dp =>
        have hrest : JParam.fileP f ∈ rest := by
          rcases List.mem_cons.mp hf with h1 | h2
          · injection h1 with h1
            rw [h1, hg] at hnone
            exact absurd hnone (by simp)
          · exact h2
        simp only [mergeEnvsGo, envContribution, hg]
        exact ih _ ⟨f, hrest, hnone⟩

/-- C10: a declared-but-unset file parameter (`make_param` with an empty
value yields `docker_path = None`) makes `create_pipeline_request` fail:
no `RequestDocument` is produced and the failure is the untyped
`TypeError` from `os.path.join(mount_root, None)` in the environment
merge, not one of the typed `ValueError` validations. -/
theorem c10_unset_param_untyped_merge_failure :
    (∀ ptype name rec p, makeParam ptype name (some []) rec = .ok p →
      p.dockerPath = none) ∧
    (∀ rc jc acts timeout f, JParam.fileP f ∈ JobParams.allParams jc →
      f.dockerPath = none →
      createPipelineRequest rc jc acts timeout = .error .typeErr) := by
  constructor
  · intro ptype name rec p h
    simp only [makeParam, if_pos rfl, mkFileParam] at h
    by_cases hv : validParamName name = true
    · rw [if_pos hv] at h
      injection h with h
      rw [← h]
    · rw [if_neg hv] at h
      exact absurd h (by simp)
  · intro rc jc acts timeout f hmem hnone
    simp only [createPipelineRequest, mergeEnvs]
    rw [mergeEnvsGo_unset_file _ _ ⟨f, hmem, hnone⟩]

/-- Witness for C10: a job with one unset input parameter (built by
`make_param` from an empty value) makes request assembly fail with the
`TypeError` model. -/
theorem c10_unset_param_untyped_merge_failure_witness :
    (FileParam.mk (S "F") none none none false).dockerPath = none ∧
    createPipelineRequest
      ⟨S "proj", S "us-west1", S "n1-standard-2", 200, none, [S "scope"]⟩
      ⟨[], [⟨S "F", none, none, none, false⟩], [], [], []⟩ [] sevenDays =
      .error .typeErr :=
  ⟨c10_unset_param_untyped_merge_failure.1 (S "Input parameter") (S "F") false
      ⟨S "F", none, none, none, false⟩ rfl,
    c10_unset_param_untyped_merge_failure.2
      ⟨S "proj", S "us-west1", S "n1-standard-2", 200, none, [S "scope"]⟩
      ⟨[], [⟨S "F", none, none, none, false⟩], [], [], []⟩ [] sevenDays
      ⟨S "F", none, none, none, false⟩ (by decide) rfl⟩

/-! ## Claim C2 -/

/-- Looking up the inserted key after an overwrite-in-place on a dict that
already holds it. -/
theorem lookup_map_overwrite (d : List (List Char × Option (List Char)))
    (k : List Char) (v : Option (List Char))
    (h : d.any (fun p => p.1 == k) = true) :
    (d.map (fun p => if p.1 == k then (k, v) else p)).lookup k = some v := by
  induction d with
  | nil => simp at h
  | cons a d ih =>
    obtain ⟨a1, a2⟩ := a
    by_cases ha : a1 = k
    · simp [List.lookup_cons, ha]
    · have hb : (a1 == k) = false := beq_eq_false_iff_ne.mpr ha
      have hb' : (k == a1) = false := beq_eq_false_iff_ne.mpr (fun he => ha he.symm)
      simp only [List.any_cons, hb, Bool.false_or] at h
      simp only [List.map_cons, hb, Bool.false_eq_true, if_false,
        List.lookup_cons, hb']
      exact ih h

/-- Looking up a freshly appended key. -/
theorem lookup_append_new (d : List (List Char × Option (List Char)))
    (k : List Char) (v : Option (List Char))
    (h : d.any (fun p => p.1 == k) = false) :
    (d ++ [(k, v)]).lookup k = some v := by
  induction d with
  | nil => simp [List.lookup]
  | cons a d ih =>
    obtain ⟨a1, a2⟩ := a
    simp only [List.any_cons, Bool.or_eq_false_iff] at h
    have hb' : (k == a1) = false := by
      rcases Bool.eq_false_iff.mp h.1 with _
      rw [beq_eq_false_iff_ne]
      intro he
      rw [he] at h
      simp at h
    simp only [List.cons_append, List.lookup_cons, hb']
    exact ih h.2

/-- Python dict assignment followed by lookup of the same key returns the
assigned value. -/
theorem lookup_dictInsert (d : List (List Char × Option (List Char)))
    (k : List Char) (v : Option (List Char)) :
    (dictInsert d k v).lookup k = some v := by
  simp only [dictInsert]
  by_cases h : d.any (fun p => p.1 == k)
  · rw [if_pos h]
    exact lookup_map_overwrite d k v h
  · rw [if_neg h]
    exact lookup_append_new d k v (Bool.eq_false_iff.mpr h)

/-- The merge loop processes an appended tail after the front. -/
theorem mergeEnvsGo_append (l1 l2 : List JParam)
    (d : List (List Char × Option (List Char))) :
    mergeEnvsGo (l1 ++ l2) d =
      match mergeEnvsGo l1 d with
      | .error e => .error e
      | .ok d' => mergeEnvsGo l2 d' := by
  induction l1 generalizing d with
  | nil => simp [mergeEnvsGo]
  | cons p rest ih =>
    simp only [List.cons_append, mergeEnvsGo]
    cases hc : envContribution p with
    | error e => simp
    | ok kv => exact ih _

/-- C2 is false as stated: assembling a job configuration whose parameter
collection holds two environment parameters that share the name `A`
raises no error — `create_pipeline_request` has no uniqueness re-check and
produces a document in which the later binding has silently overwritten
the earlier one. -/
theorem c2_counterexample :
    createPipelineRequest
      ⟨S "proj", S "us-west1", S "n1-standard-2", 200, none, [S "scope"]⟩
      ⟨[⟨S "A", some (S "1")⟩, ⟨S "A", some (S "2")⟩], [], [], [], []⟩ []
      sevenDays =
    .ok ⟨⟨[], createResources
        ⟨S "proj", S "us-west1", S "n1-standard-2", 200, none, [S "scope"]⟩,
        [(S "A", some (S "2"))], sevenDays⟩,
      [(S "minsub", S "v1")]⟩ := rfl

/-- C2 (amended): `create_pipeline_request` performs no uniqueness
re-check; when the merged parameters contain duplicated names the later
binding silently overwrites the earlier one (the merged environment maps
the last parameter's name to that last parameter's value).  Uniqueness is
enforced only earlier, at `JobParams` construction. -/
theorem c2_amended_merge_last_wins (l : List JParam) (e : EnvParam)
    (d : List (List Char × Option (List Char)))
    (h : mergeEnvs (l ++ [.envP e]) = .ok d) :
    d.lookup e.name = some e.value := by
  unfold mergeEnvs at h
  rw [mergeEnvsGo_append] at h
  cases hm : mergeEnvsGo l [] with
  | error e' =>
    rw [hm] at h
    exact absurd h (by simp)
  | ok d' =>
    rw [hm] at h
    simp only [mergeEnvsGo, envContribution] at h
    injection h with h
    rw [← h]
    exact lookup_dictInsert d' e.name e.value

/-- Witness for the amended C2: merging `A=1` then `A=2` succeeds and the
resulting environment binds `A` to `2`. -/
theorem c2_amended_merge_last_wins_witness :
    List.lookup (S "A") [(S "A", some (S "2"))] = some (some (S "2")) :=
  c2_amended_merge_last_wins [.envP ⟨S "A", some (S "1")⟩] ⟨S "A", some (S "2")⟩
    [(S "A", some (S "2"))] rfl

/-! ## Claim C4 -/

/-- Any name seen at least twice in the scan (or once while already
known) ends up in the duplicate list. -/
theorem mem_collectDuplicates_of_count (l : List (List Char))
    (known : List (List Char)) (n : List Char)
    (h : 2 ≤ l.count n ∨ (1 ≤ l.count n ∧ n ∈ known)) :
    n ∈ collectDuplicates l known := by
  induction l generalizing known with
  | nil => simp [List.count_nil] at h
  | cons m rest ih =>
    simp only [collectDuplicates]
    by_cases hm : m ∈ known
    · rw [if_pos hm]
      by_cases hmn : m = n
      · subst hmn
        exact List.mem_cons_self _ _
      · have hc : (m :: rest).count n = rest.count n := by
          rw [List.count_cons]
          simp [hmn]
        rw [hc] at h
        exact List.mem_cons_of_mem _ (ih known h)
    · rw [if_neg hm]
      by_cases hmn : m = n
      · subst hmn
        apply ih
        rcases h with h2 | ⟨_, hk⟩
        · right
          have hcc : (m :: rest).count m = rest.count m + 1 := by
            simp [List.count_cons]
          refine ⟨by omega, List.mem_cons_self _ _⟩
        · exact absurd hk hm
      · have hc : (m :: rest).count n = rest.count n := by
          rw [List.count_cons]
          simp [hmn]
        rw [hc] at h
        apply ih
        rcases h with h2 | ⟨h1, hk⟩
        · exact Or.inl h2
        · exact Or.inr ⟨h1, List.mem_cons_of_mem _ hk⟩

/-- C4: whenever a parameter name occurs at least twice across the five
classes, `JobParams` construction fails with the collision error, and the
reported duplicate list is complete — it contains every name that occurs
at least twice, not only the first one found. -/
theorem c4_collision_lists_all_duplicates (envs : List EnvParam)
    (inputs rIns outs rOuts : List FileParam) (n : List Char)
    (h : 2 ≤ (allParamNames envs inputs rIns outs rOuts).count n) :
    ∃ dups, mkJobParams envs inputs rIns outs rOuts =
        .error (.duplicateNamesErr dups) ∧ n ∈ dups ∧
      ∀ m, 2 ≤ (allParamNames envs inputs rIns outs rOuts).count m → m ∈ dups := by
  refine ⟨collectDuplicates (allParamNames envs inputs rIns outs rOuts) [], ?_, ?_, ?_⟩
  · have hmem := mem_collectDuplicates_of_count
      (allParamNames envs inputs rIns outs rOuts) [] n (Or.inl h)
    have hne : collectDuplicates (allParamNames envs inputs rIns outs rOuts) [] ≠ [] :=
      List.ne_nil_of_mem hmem
    simp only [mkJobParams]
    rw [if_neg hne]
  · exact mem_collectDuplicates_of_count _ [] n (Or.inl h)
  · intro m hm
    exact mem_collectDuplicates_of_count _ [] m (Or.inl hm)

/-- Witness for C4: an env parameter and an input parameter both named
`A` make `JobParams` construction fail, with `A` in the reported list. -/
theorem c4_collision_lists_all_duplicates_witness :
    ∃ dups, mkJobParams [⟨S "A", some (S "x")⟩]
        [⟨S "A", none, none, none, false⟩] [] [] [] =
        .error (.duplicateNamesErr dups) ∧ S "A" ∈ dups ∧
      ∀ m, 2 ≤ (allParamNames [⟨S "A", some (S "x")⟩]
        [⟨S "A", none, none, none, false⟩] [] [] []).count m → m ∈ dups :=
  c4_collision_lists_all_duplicates [⟨S "A", some (S "x")⟩]
    [⟨S "A", none, none, none, false⟩] [] [] [] (S "A") (by decide)

/-! ## Claim C5 -/

/-- C5 is false as stated: a user step's action embeds no
errexit/nounset/pipefail preamble — `UserAction.make_commands` returns the
caller's command tokens verbatim, and none of them contains the preamble
here. -/
theorem c5_counterexample :
    actionToDict ⟨[], [], [], [], []⟩
      (.userA (S "my-step") (S "debian:stable-slim")
        [S "/bin/bash", S "-c", S "echo hello"]) =
      .ok { name := S "my-step", imageUri := S "debian:stable-slim",
            commands := [S "/bin/bash", S "-c", S "echo hello"],
            environment := [], flags := [], mounts := actionMounts,
            timeout := oneDay, entrypoint := some (S "/bin/bash") } ∧
    ([S "/bin/bash", S "-c", S "echo hello"].all
      (fun c => !(containsSub bashPreamble c))) = true := by
  exact ⟨rfl, by decide⟩

/-- C5 (amended): the stage-in and stage-out actions embed a script whose
commands start with the errexit/nounset/pipefail preamble; user-step
actions do not — their commands are the caller's tokens passed through
unchanged, with no preamble added. -/
theorem c5_amended_preamble_only_stage_actions :
    (∀ jc d, actionToDict jc .localizeA = .ok d →
      ∃ body, d.commands = [S "-c", bashPreamble ++ body]) ∧
    (∀ jc d, actionToDict jc .delocalizeA = .ok d →
      ∃ body, d.commands = [S "-c", bashPreamble ++ body]) ∧
    (∀ jc nm img cmd d, actionToDict jc (.userA nm img cmd) = .ok d →
      d.commands = cmd) := by
  refine ⟨?_, ?_, ?_⟩
  · intro jc d h
    simp only [actionToDict] at h
    cases hc : localizeCopyCommands jc.inputs jc.recursiveInputs with
    | error e =>
      rw [hc] at h
      exact absurd h (by simp)
    | ok cmds =>
      rw [hc] at h
      injection h with h
      refine ⟨List.intercalate (S "\n") cmds ++ S "\n", ?_⟩
      rw [← h]
      show [S "-c", genericBashScript (List.intercalate (S "\n") cmds)] = _
      simp [genericBashScript, List.append_assoc]
  · intro jc d h
    simp only [actionToDict] at h
    cases hc : delocalizeCopyCommands jc.outputs jc.recursiveOutputs with
    | error e =>
      rw [hc] at h
      exact absurd h (by simp)
    | ok cmds =>
      rw [hc] at h
      injection h with h
      refine ⟨List.intercalate (S "\n") cmds ++ S "\n", ?_⟩
      rw [← h]
      show [S "-c", genericBashScript (List.intercalate (S "\n") cmds)] = _
      simp [genericBashScript, List.append_assoc]
  · intro jc nm img cmd d h
    simp only [actionToDict] at h
    injection h with h
    rw [← h]

/-- Witness for the amended C5: the stage-in action of an empty job embeds
the preamble, and a concrete user action passes its command through. -/
theorem c5_amended_preamble_only_stage_actions_witness :
    (∃ body,
      (ActionDict.mk (S "localize") cloudSdkImage
        [S "-c", genericBashScript (List.intercalate (S "\n") [])]
        [] [] actionMounts oneDay (some (S "/bin/bash"))).commands =
      [S "-c", bashPreamble ++ body]) ∧
    (ActionDict.mk (S "go") (S "img") [S "echo hi"]
        [] [] actionMounts oneDay (some (S "/bin/bash"))).commands =
      [S "echo hi"] :=
  ⟨c5_amended_preamble_only_stage_actions.1 ⟨[], [], [], [], []⟩ _ rfl,
    c5_amended_preamble_only_stage_actions.2.2 ⟨[], [], [], [], []⟩
      (S "go") (S "img") [S "echo hi"] _ rfl⟩

/-! ## Claim C6 -/

/-- Running the command-building loop over a permuted parameter list: it
still succeeds and produces a permuted command list. -/
theorem mapOrFail_perm (f : α → Except Err β) (l1 l2 : List α)
    (hp : l1.Perm l2) : ∀ c1, mapOrFail f l1 = .ok c1 →
      ∃ c2, mapOrFail f l2 = .ok c2 ∧ c1.Perm c2 := by
  induction hp with
  | nil => exact fun c1 h => ⟨c1, h, List.Perm.refl _⟩
  | cons a hp ih =>
    intro c1 h
    rename_i t1 t2
    simp only [mapOrFail] at h ⊢
    cases hfa : f a with
    | error e =>
      rw [hfa] at h
      exact absurd h (by simp)
    | ok b =>
      rw [hfa] at h
      cases ht : mapOrFail f t1 with
      | error e =>
        rw [ht] at h
        exact absurd h (by simp)
      | ok bs =>
        rw [ht] at h
        obtain ⟨bs2, hbs2, hperm⟩ := ih bs ht
        rw [hbs2]
        injection h with h
        exact ⟨b :: bs2, rfl, by rw [← h]; exact hperm.cons b⟩
  | swap x y l =>
    intro c1 h
    simp only [mapOrFail] at h ⊢
    cases hfy : f y with
    | error e =>
      rw [hfy] at h
      exact absurd h (by simp)
    | ok by' =>
      rw [hfy] at h
      cases hfx : f x with
      | error e =>
        rw [hfx] at h
        exact absurd h (by simp)
      | ok bx =>
        rw [hfx] at h
        cases hl : mapOrFail f l with
        | error e =>
          rw [hl] at h
          exact absurd h (by simp)
        | ok bs =>
          rw [hl] at h
          injection h with h
          exact ⟨bx :: by' :: bs, rfl, by rw [← h]; exact List.Perm.swap bx by' bs⟩
  | trans h1 h2 ih1 ih2 =>
    intro c1 h
    obtain ⟨c2, hc2, hp12⟩ := ih1 c1 h
    obtain ⟨c3, hc3, hp23⟩ := ih2 c2 hc2
    exact ⟨c3, hc3, hp12.trans hp23⟩

/-- Decomposition of a successful stage-in command build. -/
theorem localizeCopyCommands_ok (i r : List FileParam) (c : List (List Char))
    (h : localizeCopyCommands i r = .ok c) :
    ∃ a b, mapOrFail localizeCp i = .ok a ∧ mapOrFail localizeRsync r = .ok b ∧
      c = a ++ b := by
  simp only [localizeCopyCommands] at h
  cases ha : mapOrFail localizeCp i with
  | error e =>
    rw [ha] at h
    exact absurd h (by simp)
  | ok a =>
    rw [ha] at h
    cases hb : mapOrFail localizeRsync r with
    | error e =>
      rw [hb] at h
      exact absurd h (by simp)
    | ok b =>
      rw [hb] at h
      injection h with h
      exact ⟨a, b, rfl, rfl, h.symm⟩

/-- Decomposition of a successful stage-out command build. -/
theorem delocalizeCopyCommands_ok (o ro : List FileParam) (c : List (List Char))
    (h : delocalizeCopyCommands o ro = .ok c) :
    ∃ a b, mapOrFail delocalizeCp o = .ok a ∧
      mapOrFail delocalizeRsync ro = .ok b ∧ c = a ++ b := by
  simp only [delocalizeCopyCommands] at h
  cases ha : mapOrFail delocalizeCp o with
  | error e =>
    rw [ha] at h
    exact absurd h (by simp)
  | ok a =>
    rw [ha] at h
    cases hb : mapOrFail delocalizeRsync ro with
    | error e =>
      rw [hb] at h
      exact absurd h (by simp)
    | ok b =>
      rw [hb] at h
      injection h with h
      exact ⟨a, b, rfl, rfl, h.symm⟩

/-- The stage-in actions of a rendered request, for stating that two
documents differ in their action lists. -/
def pipelineActionsOf : Except Err RequestDoc → Option (List ActionDict)
  | .ok d => some d.pipeline.actions
  | .error _ => none

/-- The merged environment of a rendered request. -/
def pipelineEnvironmentOf :
    Except Err RequestDoc → List (List Char × Option (List Char))
  | .ok d => d.pipeline.environment
  | .error _ => []

/-- A concrete resource specification used in example instantiations. -/
def exampleResources : ResourcesConfig :=
  ⟨S "proj", S "us-west1", S "n1-standard-2", 200, none, [S "scope"]⟩

/-- A concrete input parameter, as `make_param` would build it from
`F1=gs://b/a.txt`. -/
def exampleInputA : FileParam :=
  ⟨S "F1", some (S "gs://b/a.txt"), some (S "gs/b/a.txt"),
    some ⟨S "gs://b/", S "a.txt"⟩, false⟩

/-- A concrete input parameter, as `make_param` would build it from
`F2=gs://b/c.txt`. -/
def exampleInputB : FileParam :=
  ⟨S "F2", some (S "gs://b/c.txt"), some (S "gs/b/c.txt"),
    some ⟨S "gs://b/", S "c.txt"⟩, false⟩

/-- C6 is false as stated: the job's parameter classes are Python sets
iterated in hash order, modelled here by the enumeration order of the
`JobParams` lists.  Two runs over the same parameter set — the same two
inputs, enumerated in the two possible orders — both succeed, produce
permuted (dict-equal) environments, yet produce different action lists:
the stage-in copy commands appear in different orders, so the
`RequestDocument`s are not identical. -/
theorem c6_counterexample :
    ([exampleInputA, exampleInputB] : List FileParam).Perm
      [exampleInputB, exampleInputA] ∧
    pipelineActionsOf (createPipelineRequest exampleResources
      ⟨[], [exampleInputA, exampleInputB], [], [], []⟩ [.localizeA] sevenDays) ≠
      none ∧
    pipelineActionsOf (createPipelineRequest exampleResources
      ⟨[], [exampleInputB, exampleInputA], [], [], []⟩ [.localizeA] sevenDays) ≠
      none ∧
    pipelineActionsOf (createPipelineRequest exampleResources
      ⟨[], [exampleInputA, exampleInputB], [], [], []⟩ [.localizeA] sevenDays) ≠
    pipelineActionsOf (createPipelineRequest exampleResources
      ⟨[], [exampleInputB, exampleInputA], [], [], []⟩ [.localizeA] sevenDays) ∧
    (pipelineEnvironmentOf (createPipelineRequest exampleResources
      ⟨[], [exampleInputA, exampleInputB], [], [], []⟩ [.localizeA] sevenDays)).Perm
    (pipelineEnvironmentOf (createPipelineRequest exampleResources
      ⟨[], [exampleInputB, exampleInputA], [], [], []⟩ [.localizeA] sevenDays)) := by
  refine ⟨by decide, by decide, by decide, by decide, by decide⟩

/-- C6 (amended): the pipeline is deterministic only relative to an
enumeration order of the parameter sets.  For a fixed enumeration the
output is a pure function of the inputs; across two enumerations of the
same sets (permutations, as arise from Python's hash-randomized set
iteration) the stage-in and stage-out builds still succeed and their copy
command lists are permutations of each other — the documents can differ
exactly in that ordering. -/
theorem c6_amended_copy_commands_permute
    (i1 i2 r1 r2 o1 o2 ro1 ro2 : List FileParam)
    (hi : i1.Perm i2) (hr : r1.Perm r2) (ho : o1.Perm o2) (hro : ro1.Perm ro2)
    (c1 d1 : List (List Char))
    (hc1 : localizeCopyCommands i1 r1 = .ok c1)
    (hd1 : delocalizeCopyCommands o1 ro1 = .ok d1) :
    ∃ c2 d2, localizeCopyCommands i2 r2 = .ok c2 ∧ c1.Perm c2 ∧
      delocalizeCopyCommands o2 ro2 = .ok d2 ∧ d1.Perm d2 := by
  obtain ⟨a, b, ha, hb, hcab⟩ := localizeCopyCommands_ok _ _ _ hc1
  obtain ⟨a2, ha2, hpa⟩ := mapOrFail_perm _ _ _ hi a ha
  obtain ⟨b2, hb2, hpb⟩ := mapOrFail_perm _ _ _ hr b hb
  obtain ⟨e, f, he, hf, hdef⟩ := delocalizeCopyCommands_ok _ _ _ hd1
  obtain ⟨e2, he2, hpe⟩ := mapOrFail_perm _ _ _ ho e he
  obtain ⟨f2, hf2, hpf⟩ := mapOrFail_perm _ _ _ hro f hf
  refine ⟨a2 ++ b2, e2 ++ f2, ?_, ?_, ?_, ?_⟩
  · simp only [localizeCopyCommands, ha2, hb2]
  · rw [hcab]
    exact hpa.append hpb
  · simp only [delocalizeCopyCommands, he2, hf2]
  · rw [hdef]
    exact hpe.append hpf

/-- Witness for the amended C6: swapping the two example inputs still
builds the stage-in commands, and the command lists are permutations. -/
theorem c6_amended_copy_commands_permute_witness :
    ∃ c2 d2,
      localizeCopyCommands [exampleInputB, exampleInputA] [] = .ok c2 ∧
      ([S "gsutil -mq cp \"gs://b/a.txt\" \"/mnt/data/gs/b/a.txt\"",
        S "gsutil -mq cp \"gs://b/c.txt\" \"/mnt/data/gs/b/c.txt\""]).Perm c2 ∧
      delocalizeCopyCommands [] [] = .ok d2 ∧ ([] : List (List Char)).Perm d2 :=
  c6_amended_copy_commands_permute [exampleInputA, exampleInputB]
    [exampleInputB, exampleInputA] [] [] [] [] [] []
    (by decide) (List.Perm.refl _) (List.Perm.refl _) (List.Perm.refl _)
    _ _ rfl rfl

/-! ## Claim C8 -/

/-- Adding an element not yet in the set appends it. -/
theorem addIfAbsent_not_mem [DecidableEq α] (l : List α) (a : α) (h : a ∉ l) :
    addIfAbsent l a = l ++ [a] := by
  simp [addIfAbsent, h]

/-- A flag without `=` splits into an absent name and the whole value. -/
theorem splitPairName_no_eq (u : List Char) (hu : u.contains '=' = false) :
    splitPairName u = (none, u) := by
  simp only [splitPairName, hu, Bool.false_eq_true, if_false]

/-- One step of the file-parameter loop on a bare (nameless) flag:
the auto name `prefix + index` is chosen and the counter advances. -/
theorem buildFileParams_bare_cons (ptype autoPre : List Char) (r : Bool)
    (u : List Char) (rest : List (List Char)) (i : Nat) (sink : List FileParam)
    (hu : u.contains '=' = false) :
    buildFileParams ptype autoPre r (u :: rest) i sink =
      match makeParam ptype (autoPre ++ (Nat.repr i).data) (some u) r with
      | .error e => .error e
      | .ok fp => buildFileParams ptype autoPre r rest (i + 1) (addIfAbsent sink fp) := by
  simp [buildFileParams, splitPairName_no_eq u hu, getVariableName]

/-- The class constructors keep the supplied name. -/
theorem mkFileParam_ok_name (ptype name : List Char) (v dp : Option (List Char))
    (u : Option UriParts) (r : Bool) (p : FileParam)
    (h : mkFileParam ptype name v dp u r = .ok p) : p.name = name := by
  simp only [mkFileParam] at h
  by_cases hv : validParamName name = true
  · rw [if_pos hv] at h
    injection h with h
    rw [← h]
  · rw [if_neg hv] at h
    exact absurd h (by simp)

/-- `make_param` keeps the supplied name. -/
theorem makeParam_ok_name (ptype name : List Char) (rawUri : Option (List Char))
    (r : Bool) (p : FileParam) (h : makeParam ptype name rawUri r = .ok p) :
    p.name = name := by
  cases rawUri with
  | none => exact mkFileParam_ok_name _ _ _ _ _ _ _ h
  | some u =>
    simp only [makeParam] at h
    by_cases hu : u = []
    · rw [if_pos hu] at h
      exact mkFileParam_ok_name _ _ _ _ _ _ _ h
    · rw [if_neg hu] at h
      cases hp : parseUri u r with
      | error e =>
        rw [hp] at h
        exact absurd h (by simp)
      | ok pr =>
        rw [hp] at h
        exact mkFileParam_ok_name _ _ _ _ _ _ _ h

/-- C8: three input flags given as bare values (no name part) are named
`INPUT_0`, `INPUT_1`, `INPUT_2` in encounter order — the per-builder
counter increases by one at each auto-named flag and is never reset within
the build. -/
theorem c8_auto_naming (u1 u2 u3 : List Char) (jp : JobParams)
    (h1 : u1.contains '=' = false) (h2 : u2.contains '=' = false)
    (h3 : u3.contains '=' = false)
    (h : argsToJobParams [] [u1, u2, u3] [] [] [] = .ok jp) :
    jp.inputs.map (·.name) = [S "INPUT_0", S "INPUT_1", S "INPUT_2"] := by
  simp only [argsToJobParams, parsePairArgs] at h
  rw [buildFileParams_bare_cons _ _ _ _ _ _ _ h1,
    show autoPrefixInput ++ (Nat.repr 0).data = S "INPUT_0" from rfl] at h
  cases hp0 : makeParam (S "Input parameter") (S "INPUT_0") (some u1) false with
  | error e =>
    rw [hp0] at h
    exact absurd h (by simp)
  | ok p0 =>
    rw [hp0] at h
    dsimp only at h
    have n0 := makeParam_ok_name _ _ _ _ _ hp0
    rw [show addIfAbsent [] p0 = [p0] by simp [addIfAbsent],
      buildFileParams_bare_cons _ _ _ _ _ _ _ h2,
      show autoPrefixInput ++ (Nat.repr 1).data = S "INPUT_1" from rfl] at h
    cases hp1 : makeParam (S "Input parameter") (S "INPUT_1") (some u2) false with
    | error e =>
      rw [hp1] at h
      exact absurd h (by simp)
    | ok p1 =>
      rw [hp1] at h
      dsimp only at h
      have n1 := makeParam_ok_name _ _ _ _ _ hp1
      have hne10 : p1 ∉ [p0] := by
        intro hmem
        rw [List.mem_singleton] at hmem
        rw [hmem, n0] at n1
        exact absurd n1 (by decide)
      rw [show addIfAbsent [p0] p1 = [p0, p1] by
          simp [addIfAbsent_not_mem _ _ hne10],
        buildFileParams_bare_cons _ _ _ _ _ _ _ h3,
        show autoPrefixInput ++ (Nat.repr 2).data = S "INPUT_2" from rfl] at h
      cases hp2 : makeParam (S "Input parameter") (S "INPUT_2") (some u3) false with
      | error e =>
        rw [hp2] at h
        exact absurd h (by simp)
      | ok p2 =>
        rw [hp2] at h
        dsimp only at h
        have n2 := makeParam_ok_name _ _ _ _ _ hp2
        have hne20 : p2 ∉ [p0, p1] := by
          intro hmem
          rcases List.mem_cons.mp hmem with he | he
          · rw [he, n0] at n2
            exact absurd n2 (by decide)
          · rw [List.mem_singleton] at he
            rw [he, n1] at n2
            exact absurd n2 (by decide)
        rw [show addIfAbsent [p0, p1] p2 = [p0, p1, p2] by
            simp [addIfAbsent_not_mem _ _ hne20]] at h
        simp only [buildFileParams] at h
        have hdup : collectDuplicates
            (allParamNames [] [p0, p1, p2] [] [] []) [] = [] := by
          have : allParamNames [] [p0, p1, p2] [] [] [] =
              [S "INPUT_0", S "INPUT_1", S "INPUT_2"] := by
            simp [allParamNames, n0, n1, n2]
          rw [this]
          decide
        simp only [mkJobParams, hdup, if_pos] at h
        injection h with h
        rw [← h]
        simp [n0, n1, n2]

/-- Witness for C8 at three concrete bare `gs://` flags. -/
theorem c8_auto_naming_witness :
    (List.map (·.name) (JobParams.inputs
      ⟨[], [⟨S "INPUT_0", some (S "gs://b/f1.txt"), some (S "gs/b/f1.txt"),
              some ⟨S "gs://b/", S "f1.txt"⟩, false⟩,
            ⟨S "INPUT_1", some (S "gs://b/f2.txt"), some (S "gs/b/f2.txt"),
              some ⟨S "gs://b/", S "f2.txt"⟩, false⟩,
            ⟨S "INPUT_2", some (S "gs://b/f3.txt"), some (S "gs/b/f3.txt"),
              some ⟨S "gs://b/", S "f3.txt"⟩, false⟩], [], [], []⟩)) =
      [S "INPUT_0", S "INPUT_1", S "INPUT_2"] :=
  c8_auto_naming (S "gs://b/f1.txt") (S "gs://b/f2.txt") (S "gs://b/f3.txt")
    _ (by decide) (by decide) (by decide) rfl

end Minsub
